import Mathlib

/-!
Verification development for the server_monitor repository.

The definitions below are a shallow embedding of the CLI's core library
code (cli/src/lib/plist-from-json.js, cli/src/lib/config.js,
cli/src/lib/launchd.js, the health evaluator shipped in scripts/monitor.sh,
and cli/src/commands/remove.js).  JavaScript strings are Lean Strings,
JavaScript objects with optional fields become structures with Option
fields, object mutation is made explicit by returning the updated record,
thrown exceptions become Except, and external processes (launchctl, fetch,
lsof, the file system) are parameters describing the outcome of the call
or an explicit trace of the actions performed.
-/

set_option maxRecDepth 400000

/-! ### JavaScript string primitives -/

/-- ASCII lowering of one character; models what String.prototype.toLowerCase
does on the ASCII identifiers and names this tool manipulates. -/
def charLower (c : Char) : Char :=
  if 65 ≤ c.toNat ∧ c.toNat ≤ 90 then Char.ofNat (c.toNat + 32) else c

/-- Model of s.toLowerCase() (ASCII range). -/
def jsToLower (s : String) : String := ⟨s.data.map charLower⟩

/-- Is the first list a prefix of the second (Boolean, executable). -/
def isPrefixCL : List Char → List Char → Bool
  | [], _ => true
  | _ :: _, [] => false
  | a :: as, b :: bs => a == b && isPrefixCL as bs

/-- Does the haystack contain the needle as a contiguous substring.
Models String.prototype.includes. -/
def containsCL (needle : List Char) : List Char → Bool
  | [] => isPrefixCL needle []
  | c :: rest => isPrefixCL needle (c :: rest) || containsCL needle rest

/-- s.includes(t) on Lean strings. -/
def strContains (s t : String) : Bool := containsCL t.data s.data

/-- Does s end with the given suffix (used to reason about file extensions). -/
def strEndsWith (s suffix : String) : Bool :=
  isPrefixCL suffix.data.reverse s.data.reverse

/-- The whitespace class of the JavaScript regex \s, restricted to ASCII. -/
def jsIsSpace (c : Char) : Bool :=
  c == ' ' || c == '\t' || c == '\n' || c == '\r' || c == '\x0b' || c == '\x0c'

/-- Accumulator pass for command.split(/\s+/).filter(Boolean): split on runs
of whitespace and drop the empty fragments. -/
def tokenizeAux : List Char → List Char → List String
  | cur, [] => if cur.isEmpty then [] else [⟨cur.reverse⟩]
  | cur, c :: rest =>
    if jsIsSpace c then
      if cur.isEmpty then tokenizeAux [] rest
      else ⟨cur.reverse⟩ :: tokenizeAux [] rest
    else tokenizeAux (c :: cur) rest

/-- command.split(/\s+/).filter(Boolean). -/
def tokenizeWs (s : String) : List String := tokenizeAux [] s.data

/-- Accumulator pass for identifier.split('.'): split on dots, keeping empty
fragments, never returning an empty list. -/
def splitDotAux : List Char → List Char → List String
  | cur, [] => [⟨cur.reverse⟩]
  | cur, c :: rest =>
    if c == '.' then ⟨cur.reverse⟩ :: splitDotAux [] rest
    else splitDotAux (c :: cur) rest

/-- extractShortName from plist-from-json.js: identifier.split('.').pop(). -/
def extractShortName (identifier : String) : String :=
  (splitDotAux [] identifier.data).getLastD ""

/-- path.dirname for paths that do not end in a slash: everything before the
last slash, "." when there is no slash, "/" when the last slash is leading. -/
def jsDirname (p : String) : String :=
  match p.data.reverse.dropWhile (fun c => !(c == '/')) with
  | [] => "."
  | [_] => "/"
  | _ :: c :: t => ⟨(c :: t).reverse⟩

/-- path.join(a, b) for a simple directory a and a slash-free file name b. -/
def jsJoin (a b : String) : String :=
  if a == "." then b else a ++ "/" ++ b

/-- Escape one character for XML, per escapeXml in plist-from-json.js.  The
source applies five chained .replace calls (& first); since no replacement
string contains <, >, " or an apostrophe, that chain is exactly this
single-pass character map. -/
def escChar (c : Char) : String :=
  if c == '&' then "&amp;"
  else if c == '<' then "&lt;"
  else if c == '>' then "&gt;"
  else if c == '"' then "&quot;"
  else if c == '\'' then "&apos;"
  else String.singleton c

/-- escapeXml from plist-from-json.js (on an actual string argument). -/
def escapeXml (s : String) : String := String.join (s.data.map escChar)

/-- Array.prototype.join('\n'). -/
def joinNl : List String → String
  | [] => ""
  | [a] => a
  | a :: b :: rest => a ++ "\n" ++ joinNl (b :: rest)

/-- '    '.repeat(n). -/
def indentSpaces (n : Nat) : String := String.join (List.replicate n "    ")

/-! ### JavaScript truthiness on the optional fields we model -/

/-- Truthiness of an optional string field: absent, null and '' are falsy. -/
def truthyOptStr : Option String → Bool
  | none => false
  | some s => !(s == "")

/-- Truthiness of an optional port number: absent and 0 are falsy. -/
def truthyPort : Option Nat → Bool
  | none => false
  | some p => !(p == 0)

/-! ### Plist value trees (the extraKeys escape hatch) -/

/-- A JSON value appearing under extraKeys: booleans, integers, strings,
arrays and nested objects, as valueToXml in plist-from-json.js consumes
them. -/
inductive PValue where
  | bool (b : Bool)
  | int (n : Int)
  | str (s : String)
  | arr (items : List PValue)
  | dict (entries : List (String × PValue))
deriving Repr

mutual

/-- valueToXml from plist-from-json.js. -/
def valueToXml (v : PValue) (indent : Nat) : String :=
  let spaces := indentSpaces indent
  match v with
  | .bool true => spaces ++ "<true/>"
  | .bool false => spaces ++ "<false/>"
  | .int n => spaces ++ "<integer>" ++ toString n ++ "</integer>"
  | .str s => spaces ++ "<string>" ++ escapeXml s ++ "</string>"
  | .arr items =>
    spaces ++ "<array>\n" ++ joinNl (arrXml items (indent + 1)) ++ "\n" ++ spaces ++ "</array>"
  | .dict entries =>
    spaces ++ "<dict>\n" ++ joinNl (dictXml entries indent (indent + 1)) ++ "\n" ++ spaces ++ "</dict>"

/-- The array items of valueToXml, each rendered one level deeper. -/
def arrXml : List PValue → Nat → List String
  | [], _ => []
  | v :: rest, ind => valueToXml v ind :: arrXml rest ind

/-- The dictionary entries of valueToXml: key line plus rendered value. -/
def dictXml : List (String × PValue) → Nat → Nat → List String
  | [], _, _ => []
  | (k, v) :: rest, ind, ind1 =>
    (indentSpaces ind ++ "    <key>" ++ escapeXml k ++ "</key>\n" ++ valueToXml v ind1)
      :: dictXml rest ind ind1

end

/-! ### The data model -/

/-- The command field of a manifest entry: a single string (tokenized on
whitespace at render time) or an argv array. -/
inductive Command where
  | str (s : String)
  | argv (args : List String)
deriving Repr

/-- The keepAlive field: a boolean, or an object whose entries map plist key
names to booleans (e.g. SuccessfulExit -> false). -/
inductive KeepAliveCfg where
  | bool (b : Bool)
  | obj (entries : List (String × Bool))
deriving Repr

/-- One entry of services.json, with optional fields as Option. -/
structure ServiceRecord where
  name : String
  identifier : Option String
  path : Option String
  command : Option Command
  port : Option Nat
  healthCheck : Option String
  enabled : Option Bool
  keepAlive : Option KeepAliveCfg
  environmentVariables : Option (List (String × String))
  throttleInterval : Option Int
  extraKeys : Option (List (String × PValue))
deriving Repr

/-- The settings slice generatePlistFromService receives: { logDir, nodePath }. -/
structure GlobalSettings where
  logDir : Option String
  nodePath : Option String
deriving Repr

/-- Truthiness of the command field: absent, null and the empty string are
falsy; every array (even empty) is truthy. -/
def truthyCmd : Option Command → Bool
  | none => false
  | some (.str s) => !(s == "")
  | some (.argv _) => true


/-! ### The descriptor renderer (generatePlistFromService) -/

/-- Resolve the command field to an argv list: arrays pass through, strings
are split on whitespace with empty tokens dropped. -/
def commandToArray : Command → List String
  | .argv args => args
  | .str s => tokenizeWs s

/-- settings.logDir with its fallback: settings.logDir or '/var/log'. -/
def effLogDir : Option String → String
  | none => "/var/log"
  | some s => if s == "" then "/var/log" else s

/-- One line of the ProgramArguments array. -/
def programArgXml (arg : String) : String :=
  "        <string>" ++ escapeXml arg ++ "</string>"

/-- One entry of a structured KeepAlive object: the key, escaped, and the
boolean value interpolated as a self-closing tag. -/
def keepAliveEntryXml (e : String × Bool) : String :=
  "        <key>" ++ escapeXml e.1 ++ "</key>\n        <"
    ++ (if e.2 then "true" else "false") ++ "/>"

/-- The KeepAlive value XML: booleans render as bare true/false literals,
objects render as a dict of their entries verbatim; an absent field
defaults to true. -/
def keepAliveSection : Option KeepAliveCfg → String
  | some (.bool true) => "    <true/>"
  | some (.bool false) => "    <false/>"
  | some (.obj entries) =>
    "    <dict>\n" ++ joinNl (entries.map keepAliveEntryXml) ++ "\n    </dict>"
  | none => "    <true/>"

/-- One entry of the EnvironmentVariables dict. -/
def envEntryXml (e : String × String) : String :=
  "        <key>" ++ escapeXml e.1 ++ "</key>\n        <string>"
    ++ escapeXml e.2 ++ "</string>"

/-- The EnvironmentVariables section; empty when there are no variables. -/
def envSection (envVars : List (String × String)) : String :=
  if envVars.isEmpty then ""
  else
    "    <key>EnvironmentVariables</key>\n    <dict>\n"
      ++ joinNl (envVars.map envEntryXml) ++ "\n    </dict>"

/-- The ThrottleInterval section; empty when the field is absent. -/
def throttleSection : Option Int → String
  | none => ""
  | some t => "    <key>ThrottleInterval</key>\n    <integer>" ++ toString t ++ "</integer>"

/-- The extraKeys passthrough section; empty when the field is absent. -/
def extraKeysSection : Option (List (String × PValue)) → String
  | none => ""
  | some entries =>
    joinNl (entries.map fun e =>
      "    <key>" ++ escapeXml e.1 ++ "</key>\n" ++ valueToXml e.2 1)

/-- The WorkingDirectory section; omitted entirely when path is falsy. -/
def workingDirSection : Option String → String
  | none => ""
  | some p =>
    if p == "" then ""
    else "    <key>WorkingDirectory</key>\n    <string>" ++ escapeXml p ++ "</string>"

/-- The RunAtLoad section: false only when enabled is literally false. -/
def runAtLoadSection (enabled : Option Bool) : String :=
  "    <key>RunAtLoad</key>\n    <"
    ++ (if enabled == some false then "false" else "true") ++ "/>"

/-- The fixed plist preamble. -/
def plistHeader : String :=
  "<?xml version=\"1.0\" encoding=\"UTF-8\"?>\n<!DOCTYPE plist PUBLIC \"-//Apple//DTD PLIST 1.0//EN\" \"http://www.apple.com/DTDs/PropertyList-1.0.dtd\">\n<plist version=\"1.0\">\n<dict>\n"

/-- The fixed plist closing. -/
def plistFooter : String := "\n</dict>\n</plist>"

/-- The section list of generatePlistFromService, in source order; optional
sections contribute the empty string, which the assembler filters out. -/
def plistSections (identifier : String) (cmd : Command) (path : Option String)
    (enabled : Option Bool) (ka : Option KeepAliveCfg) (throttle : Option Int)
    (extra : Option (List (String × PValue))) (logDirOpt : Option String)
    (envVars : List (String × String)) : List String :=
  let shortName := extractShortName identifier
  let logDir := effLogDir logDirOpt
  [ "    <key>Label</key>\n    <string>" ++ escapeXml identifier ++ "</string>",
    "    <key>ProgramArguments</key>\n    <array>\n"
      ++ joinNl ((commandToArray cmd).map programArgXml) ++ "\n    </array>",
    workingDirSection path,
    runAtLoadSection enabled,
    "    <key>KeepAlive</key>\n" ++ keepAliveSection ka,
    throttleSection throttle,
    "    <key>StandardOutPath</key>\n    <string>" ++ escapeXml logDir ++ "/"
      ++ escapeXml shortName ++ ".log</string>",
    "    <key>StandardErrorPath</key>\n    <string>" ++ escapeXml logDir ++ "/"
      ++ escapeXml shortName ++ ".error.log</string>",
    envSection envVars,
    extraKeysSection extra ]

/-- Assemble the final document: drop the empty sections and join. -/
def assemblePlist (sections : List String) : String :=
  plistHeader ++ joinNl (sections.filter fun s => !(s == "")) ++ plistFooter

/-- Pure rendering once validation has passed and the environment-variable
mapping to emit has been computed. -/
def renderPlist (identifier : String) (cmd : Command) (path : Option String)
    (enabled : Option Bool) (ka : Option KeepAliveCfg) (throttle : Option Int)
    (extra : Option (List (String × PValue))) (logDirOpt : Option String)
    (envVars : List (String × String)) : String :=
  assemblePlist (plistSections identifier cmd path enabled ka throttle extra logDirOpt envVars)

/-! ### The PATH synthesis, including its mutation of the service record -/

/-- The PATH value synthesized from settings.nodePath. -/
def pathSynth (nodePath : String) : String :=
  jsDirname nodePath ++ ":/usr/local/bin:/usr/bin:/bin"

/-- Truthiness of a looked-up environment value (absent or '' is falsy). -/
def truthyEnvVal : Option String → Bool
  | none => false
  | some v => !(v == "")

/-- Property lookup on the environment object: value of the first (and, for
an object, only) binding of the key. -/
def lookupKey : List (String × String) → String → Option String
  | [], _ => none
  | p :: rest, k => if p.1 == k then some p.2 else lookupKey rest k

/-- Does the environment object have a binding for the key. -/
def hasKey : List (String × String) → String → Bool
  | [], _ => false
  | p :: rest, k => p.1 == k || hasKey rest k

/-- Property assignment on the environment object: an existing key keeps its
position and gets the new value, a fresh key is appended. -/
def setKeyJs (l : List (String × String)) (k v : String) : List (String × String) :=
  if hasKey l k then l.map fun p => if p.1 == k then (k, v) else p
  else l ++ [(k, v)]

/-- The guard of the PATH synthesis: settings.nodePath is truthy and
envVars.PATH is not. -/
def envDoSynth (envVars : List (String × String)) (nodePath : Option String) : Bool :=
  truthyOptStr nodePath && !truthyEnvVal (lookupKey envVars "PATH")

/-- The environment object after the conditional PATH assignment. -/
def envAfterSynth (envVars : List (String × String)) (nodePath : Option String) :
    List (String × String) :=
  if envDoSynth envVars nodePath then
    setKeyJs envVars "PATH" (pathSynth (nodePath.getD ""))
  else envVars

/-- The envVars block of generatePlistFromService.  envVars aliases
service.environmentVariables when that field is present (so the PATH
assignment mutates the record) and is a fresh empty object otherwise.
Returns the mapping used for rendering and the record field after the call. -/
def computeEnv (envOpt : Option (List (String × String))) (nodePath : Option String) :
    List (String × String) × Option (List (String × String)) :=
  (envAfterSynth (envOpt.getD []) nodePath,
   match envOpt with
   | none => none
   | some l => some (envAfterSynth l nodePath))

/-- generatePlistFromService from plist-from-json.js.  Because the PATH
synthesis writes through the envVars alias, the function returns the
service record as it stands after the call alongside the rendered XML;
validation failures are the thrown Errors. -/
def generatePlistFromService (service : ServiceRecord) (settings : GlobalSettings) :
    Except String (String × ServiceRecord) :=
  if truthyOptStr service.identifier = false then
    .error "Service must have an identifier"
  else if truthyCmd service.command = false then
    .error "Service must have a command"
  else
    let env := computeEnv service.environmentVariables settings.nodePath
    .ok (renderPlist (service.identifier.getD "") (service.command.getD (.argv []))
           service.path service.enabled service.keepAlive service.throttleInterval
           service.extraKeys settings.logDir env.1,
         { service with environmentVariables := env.2 })

/-- Run the renderer twice on the very same (possibly mutated) record, as
two successive calls in the source would. -/
def genTwice (service : ServiceRecord) (settings : GlobalSettings) :
    Except String (String × ServiceRecord) :=
  match generatePlistFromService service settings with
  | .ok (_, s1) => generatePlistFromService s1 settings
  | .error e => .error e

/-- The rendered document, or the error message on validation failure. -/
def genOut (service : ServiceRecord) (settings : GlobalSettings) : String :=
  match generatePlistFromService service settings with
  | .ok (o, _) => o
  | .error e => e

/-- The service record as it stands after a render call (unchanged when the
call threw). -/
def genServiceAfter (service : ServiceRecord) (settings : GlobalSettings) : ServiceRecord :=
  match generatePlistFromService service settings with
  | .ok (_, s1) => s1
  | .error _ => service

/-! ### The descriptor store and the manifest save (atomic-write claims) -/

/-- One observable file-system action performed by a write path. -/
inductive FsAction where
  | write (path content : String)
  | rename (src dst : String)
deriving Repr, DecidableEq

/-- The temporary file name writePlistAtomic builds from 8 random bytes in
hex. -/
def tempPlistName (rand : String) : String := ".plist-" ++ rand ++ ".tmp"

/-- writePlistAtomic from plist-from-json.js, as the trace of file-system
actions of its success path: write the content to a randomly named
temporary file in the destination's directory, then rename it over the
destination. -/
def writePlistAtomic (content destPath rand : String) : List FsAction :=
  let tempPath := jsJoin (jsDirname destPath) (tempPlistName rand)
  [.write tempPath content, .rename tempPath destPath]

/-- saveConfig from config.js, as its trace of file-system actions: a single
direct writeFileSync of the serialized config to the manifest path. -/
def saveConfig (configPath serialized : String) : List FsAction :=
  [.write configPath serialized]

/-- Spec-side predicate (from the spec's atomic-write requirement): the trace
never writes the destination directly, and it renames a file from the
destination's own directory over the destination. -/
def isAtomicReplace (destPath : String) (trace : List FsAction) : Bool :=
  (trace.all fun a =>
    match a with
    | .write p _ => !(p == destPath)
    | .rename _ _ => true) &&
  (trace.any fun a =>
    match a with
    | .rename src dst => dst == destPath && (jsDirname src == jsDirname destPath)
    | .write _ _ => false)

/-! ### Manifest operations (config.js) -/

/-- The manifest as loaded from services.json (the slice the resolution and
mutation operations read). -/
structure ServicesConfig where
  services : List ServiceRecord
deriving Repr

/-- The fuzzy-match predicate of getService: case-insensitive equality on the
name, or substring containment in the lowercased identifier, both checked
for each entry in one pass. -/
def matchesQuery (name : String) (s : ServiceRecord) : Bool :=
  jsToLower s.name == jsToLower name
    || strContains (jsToLower (s.identifier.getD "")) (jsToLower name)

/-- getService from config.js: the first entry, in manifest order, whose name
matches case-insensitively or whose identifier contains the query. -/
def getService (cfg : ServicesConfig) (name : String) : Option ServiceRecord :=
  cfg.services.find? (matchesQuery name)

/-- The duplicate test of addService: case-insensitive name equality, or
strict (===) identifier equality. -/
def isDuplicateOf (service s : ServiceRecord) : Bool :=
  jsToLower s.name == jsToLower service.name || s.identifier == service.identifier

/-- A manifest-level action: the only writer of services.json is saveConfig. -/
inductive ConfigAction where
  | save (cfg : ServicesConfig)

/-- addService from config.js: throw on a duplicate (before any save), else
append and persist.  The second component is the list of saveConfig calls
performed. -/
def addService (cfg : ServicesConfig) (service : ServiceRecord) :
    Except String ServicesConfig × List ConfigAction :=
  match cfg.services.find? (isDuplicateOf service) with
  | some _ => (.error ("Service \"" ++ service.name ++ "\" already exists"), [])
  | none =>
    let cfg' : ServicesConfig := ⟨cfg.services ++ [service]⟩
    (.ok cfg', [.save cfg'])

/-! ### Supervisor status (launchd.js getServiceStatus) -/

/-- One digit of the regex class \d. -/
def jsIsDigit (c : Char) : Bool := 48 ≤ c.toNat && c.toNat ≤ 57

/-- parseInt on a nonempty digit string. -/
def digitsToNat (l : List Char) : Nat :=
  l.foldl (fun acc c => acc * 10 + (c.toNat - 48)) 0

/-- After the literal key has matched, consume \s*=\s*(\d+) and return the
captured number. -/
def matchAfterKey (l : List Char) : Option Nat :=
  match l.dropWhile jsIsSpace with
  | '=' :: rest =>
    let ds := (rest.dropWhile jsIsSpace).takeWhile jsIsDigit
    if ds.isEmpty then none else some (digitsToNat ds)
  | _ => none

/-- output.match(/KEY\s*=\s*(\d+)/) for a literal KEY: scan left to right for
the first position where the whole pattern matches and return the capture. -/
def scanKeyNum (key : List Char) : List Char → Option Nat
  | [] => none
  | c :: rest =>
    if isPrefixCL key (c :: rest) then
      match matchAfterKey (List.drop key.length (c :: rest)) with
      | some n => some n
      | none => scanKeyNum key rest
    else scanKeyNum key rest

/-- SupervisorStatus: the record getServiceStatus returns. -/
structure ServiceStatus where
  loaded : Bool
  running : Bool
  pid : Option Nat
  exitStatus : Option Nat
deriving Repr, DecidableEq

/-- getServiceStatus from launchd.js.  The argument is the outcome of the
launchctl list invocation: none when execSync threw (for any reason —
unknown label, launchctl missing, nonzero exit), some output on success. -/
def getServiceStatus (queryResult : Option String) : ServiceStatus :=
  match queryResult with
  | none => { loaded := false, running := false, pid := none, exitStatus := none }
  | some output =>
    let pid := scanKeyNum "\"PID\"".data output.data
    let exitStatus := scanKeyNum "\"LastExitStatus\"".data output.data
    { loaded := true, running := pid.isSome, pid := pid, exitStatus := exitStatus }

/-! ### Health evaluator (lib/health.js, shipped inside scripts/monitor.sh) -/

/-- Result of the lsof port probe. -/
structure PortResult where
  listening : Bool
  pid : Option Nat
deriving Repr, DecidableEq

/-- Result of the HTTP health probe. -/
structure HttpResult where
  healthy : Bool
  status : Option Int
deriving Repr, DecidableEq

/-- checkHealth: on fetch success the service is healthy iff response.ok or
status < 500; on fetch failure an https URL is retried through curl
(healthy iff 0 < status < 500), anything else is an unhealthy result.
Probe outcomes (HTTP status or failure) are parameters. -/
def checkHealth (isHttps : Bool) (fetchStatus : Option Int) (curlStatus : Option Int) :
    HttpResult :=
  match fetchStatus with
  | some st =>
    { healthy := (decide (200 ≤ st) && decide (st ≤ 299)) || decide (st < 500)
      status := some st }
  | none =>
    if isHttps then
      match curlStatus with
      | some st => { healthy := decide (0 < st) && decide (st < 500), status := some st }
      | none => { healthy := false, status := none }
    else { healthy := false, status := none }

/-- HealthRecord: what getServiceHealth returns (minus presentation fields). -/
structure HealthRecord where
  status : String
  portCheck : Option PortResult
  httpCheck : Option HttpResult
deriving Repr, DecidableEq

/-- getServiceHealth: run the configured probes, then derive the status label
cascade.  The probe outcomes are parameters (they are network calls); a
probe only contributes when the corresponding field is configured. -/
def getServiceHealth (service : ServiceRecord) (launchd : ServiceStatus)
    (portProbe : PortResult) (httpProbe : HttpResult) : HealthRecord :=
  let portCheck := if truthyPort service.port then some portProbe else none
  let httpCheck := if truthyOptStr service.healthCheck then some httpProbe else none
  let status :=
    if launchd.loaded = false then "not_installed"
    else if launchd.running = false then "stopped"
    else if (match portCheck with | some pc => !pc.listening | none => false) then "starting"
    else if (match httpCheck with | some hc => !hc.healthy | none => false) then "unhealthy"
    else "healthy"
  { status := status, portCheck := portCheck, httpCheck := httpCheck }

/-- The status cascade in the spec's own phrasing, with the final branch as
the code has it: the label is healthy whenever the service is loaded and
running and no configured check is failing. -/
def specHealthStatus (portDeclared urlDeclared loaded running listening healthy : Bool) :
    String :=
  if !loaded then "not_installed"
  else if !running then "stopped"
  else if portDeclared && !listening then "starting"
  else if urlDeclared && !healthy then "unhealthy"
  else "healthy"

/-! ### Uninstall and the remove command -/

/-- The steps uninstallService (launchd.js) can perform, in order. -/
inductive UninstallStep where
  | bootout | stopVerb | unloadVerb | unlinkAgents | unlinkSource
deriving Repr, DecidableEq

/-- uninstallService from launchd.js: try launchctl bootout; on failure fall
back to stop + unload with every launchctl error swallowed; then delete
the descriptor from the LaunchAgents directory and from the source
directory when present (unlinkSync there can throw).  Returns the step
trace and the thrown error, if any. -/
def uninstallService (bootoutOk destExists srcExists unlinkDestOk unlinkSrcOk : Bool) :
    List UninstallStep × Except String Unit :=
  let ctl :=
    if bootoutOk then [UninstallStep.bootout]
    else [UninstallStep.bootout, UninstallStep.stopVerb, UninstallStep.unloadVerb]
  if destExists then
    if unlinkDestOk then
      if srcExists then
        if unlinkSrcOk then
          (ctl ++ [UninstallStep.unlinkAgents, UninstallStep.unlinkSource], .ok ())
        else
          (ctl ++ [UninstallStep.unlinkAgents, UninstallStep.unlinkSource],
           .error "unlink failed")
      else (ctl ++ [UninstallStep.unlinkAgents], .ok ())
    else (ctl ++ [UninstallStep.unlinkAgents], .error "unlink failed")
  else
    if srcExists then
      if unlinkSrcOk then (ctl ++ [UninstallStep.unlinkSource], .ok ())
      else (ctl ++ [UninstallStep.unlinkSource], .error "unlink failed")
    else (ctl, .ok ())

/-- The externally visible steps of the remove command. -/
inductive RemoveStep where
  | uninstall | cleanupPlists | deleteLogs | stripManifest | fail
deriving Repr, DecidableEq

/-- removeCommand from commands/remove.js: resolve the service; when it is
loaded or running run uninstallService, otherwise just delete the two
descriptor copies; then optionally delete the log files; then, unless
--keep-config was given, strip the manifest entry.  The whole body sits in
one try/catch, so any error thrown by the uninstall aborts the command
(fail) before the later steps run.  Log and descriptor deletions of the
non-uninstall branches are modelled as succeeding. -/
def removeCommand (serviceFound loaded running : Bool)
    (uninstallResult : Except String Unit) (keepConfig cleanLogs : Bool) :
    List RemoveStep :=
  if serviceFound = false then [.fail]
  else if loaded || running then
    match uninstallResult with
    | .error _ => [.uninstall, .fail]
    | .ok _ =>
      [RemoveStep.uninstall]
        ++ (if cleanLogs then [RemoveStep.deleteLogs] else [])
        ++ (if keepConfig then [] else [RemoveStep.stripManifest])
  else
    [RemoveStep.cleanupPlists]
      ++ (if cleanLogs then [RemoveStep.deleteLogs] else [])
      ++ (if keepConfig then [] else [RemoveStep.stripManifest])


/-! ### Concrete fixtures used by witnesses and counterexamples -/

/-- Settings with no runtime binary path configured. -/
def exSettings : GlobalSettings := { logDir := some "/var/log", nodePath := none }

/-- Settings with a runtime binary path, as a real installation has. -/
def exNodeSettings : GlobalSettings :=
  { logDir := some "/var/log", nodePath := some "/opt/node/bin/node" }

/-- The spec's own walk-through service record. -/
def exService : ServiceRecord :=
  { name := "Test", identifier := some "com.servermonitor.test", path := some "/tmp",
    command := some (.argv ["python3", "-m", "http.server", "9999"]), port := some 9999,
    healthCheck := none, enabled := none, keepAlive := none,
    environmentVariables := none, throttleInterval := none, extraKeys := none }

/-- A record whose command is a whitespace-only string. -/
def wsCommandService : ServiceRecord := { exService with command := some (.str "   ") }

/-- A record whose command is an empty argv array. -/
def emptyArgvService : ServiceRecord := { exService with command := some (.argv []) }

/-- A record with no identifier at all. -/
def noIdService : ServiceRecord := { exService with identifier := none }

/-- A record with no command at all. -/
def noCmdService : ServiceRecord := { exService with command := none }

/-- A record carrying an environment mapping without a PATH entry. -/
def fooEnvService : ServiceRecord :=
  { exService with environmentVariables := some [("FOO", "bar")] }

/-- A record whose environment mapping pins its own PATH. -/
def customPathService : ServiceRecord :=
  { exService with environmentVariables := some [("PATH", "/custom/bin")] }

/-- A record using the spec's structured keepAlive form, with no probes
configured so that the rendered document contains no other boolean flags. -/
def kaService : ServiceRecord :=
  { exService with keepAlive := some (.obj [("successfulExitOnly", true)]) }

/-- A record with neither port nor health URL configured. -/
def noChecksService : ServiceRecord :=
  { exService with port := none, healthCheck := none }

/-- First manifest entry: its identifier contains the word test. -/
def svcAlpha : ServiceRecord :=
  { exService with name := "Alpha", identifier := some "com.servermonitor.test" }

/-- Second manifest entry: its name is exactly test. -/
def svcTestName : ServiceRecord :=
  { exService with name := "test", identifier := some "com.servermonitor.beta" }

/-- A two-entry manifest where an identifier substring match shadows a later
exact name match. -/
def exConfig : ServicesConfig := ⟨[svcAlpha, svcTestName]⟩

/-- A record colliding with svcAlpha on the name, case-insensitively. -/
def dupNameService : ServiceRecord :=
  { exService with name := "ALPHA", identifier := some "com.other.x" }

/-- A record colliding with nothing in exConfig. -/
def freshService : ServiceRecord :=
  { exService with name := "Gamma", identifier := some "com.servermonitor.gamma" }

/-! ### Helper lemmas -/

theorem append_ne_empty_right (a b : String) (h : b.length ≠ 0) : ((a ++ b) == "") = false := by
  rw [beq_eq_false_iff_ne]
  intro hc
  have hl := congrArg String.length hc
  rw [String.length_append] at hl
  simp only [String.length_empty] at hl
  omega

theorem append_ne_empty_left (a b : String) (h : a.length ≠ 0) : ((a ++ b) == "") = false := by
  rw [beq_eq_false_iff_ne]
  intro hc
  have hl := congrArg String.length hc
  rw [String.length_append] at hl
  simp only [String.length_empty] at hl
  omega

theorem joinNl_cons_cons (a y : String) (ys : List String) :
    joinNl (a :: y :: ys) = a ++ "\n" ++ joinNl (y :: ys) := rfl

theorem joinNl_filter_contains :
    ∀ (l : List String) (x : String), x ∈ l → (x == "") = false →
      ∃ u v, joinNl (l.filter fun s => !(s == "")) = u ++ x ++ v := by
  intro l
  induction l with
  | nil => intro x hx _; exact absurd hx (List.not_mem_nil x)
  | cons a t ih =>
    intro x hx hne
    rcases List.mem_cons.mp hx with hxa | hxt
    · subst hxa
      have hpa : (fun s => !(s == "")) x = true := by
        show (!(x == "")) = true
        rw [hne]; rfl
      have hfc : List.filter (fun s => !(s == "")) (x :: t)
          = x :: List.filter (fun s => !(s == "")) t := List.filter_cons_of_pos hpa
      rw [hfc]
      cases hft : t.filter (fun s => !(s == "")) with
      | nil =>
        refine ⟨"", "", ?_⟩
        show joinNl [x] = "" ++ x ++ ""
        simp [joinNl]
      | cons y ys =>
        refine ⟨"", "\n" ++ joinNl (y :: ys), ?_⟩
        rw [joinNl_cons_cons, String.empty_append, String.append_assoc]
    · obtain ⟨u, v, hj⟩ := ih x hxt hne
      by_cases hpa : (fun s => !(s == "")) a = true
      · have hfc : List.filter (fun s => !(s == "")) (a :: t)
            = a :: List.filter (fun s => !(s == "")) t := List.filter_cons_of_pos hpa
        rw [hfc]
        have hxft : x ∈ t.filter (fun s => !(s == "")) :=
          List.mem_filter.mpr ⟨hxt, by show (!(x == "")) = true; rw [hne]; rfl⟩
        cases hft : t.filter (fun s => !(s == "")) with
        | nil => rw [hft] at hxft; exact absurd hxft (List.not_mem_nil x)
        | cons y ys =>
          rw [hft] at hj
          refine ⟨a ++ "\n" ++ u, v, ?_⟩
          rw [joinNl_cons_cons, hj]
          simp only [String.append_assoc]
      · have hfc : List.filter (fun s => !(s == "")) (a :: t)
            = List.filter (fun s => !(s == "")) t := List.filter_cons_of_neg hpa
        rw [hfc]
        exact ⟨u, v, hj⟩

theorem lookupKey_setKeyJs (l : List (String × String)) (k v : String) :
    lookupKey (setKeyJs l k v) k = some v := by
  induction l with
  | nil =>
    show lookupKey (setKeyJs [] k v) k = some v
    unfold setKeyJs hasKey
    rw [if_neg (by simp)]
    show lookupKey [(k, v)] k = some v
    unfold lookupKey
    rw [if_pos (by simp)]
  | cons a t ih =>
    unfold setKeyJs hasKey
    by_cases hak : (a.1 == k) = true
    · rw [if_pos (by rw [hak]; simp)]
      rw [List.map_cons, if_pos hak]
      unfold lookupKey
      rw [if_pos (by simp)]
    · have hak' : (a.1 == k) = false := by
        cases hb : (a.1 == k) with
        | true => exact absurd hb hak
        | false => rfl
      cases hht : hasKey t k with
      | true =>
        rw [if_pos (by simp [hak', hht])]
        rw [List.map_cons, if_neg hak]
        unfold lookupKey
        rw [if_neg hak]
        have := ih
        unfold setKeyJs at this
        rw [if_pos (by rw [hht]) ] at this
        exact this
      | false =>
        rw [if_neg (by simp [hak', hht])]
        rw [List.cons_append]
        unfold lookupKey
        rw [if_neg hak]
        have := ih
        unfold setKeyJs at this
        rw [if_neg (by rw [hht]; simp)] at this
        exact this

theorem pathSynth_ne_empty (np : String) : (pathSynth np == "") = false := by
  unfold pathSynth
  exact append_ne_empty_right _ _ (by decide)

theorem envAfterSynth_idem (l : List (String × String)) (n : Option String) :
    envAfterSynth (envAfterSynth l n) n = envAfterSynth l n := by
  by_cases hd : envDoSynth l n = true
  · unfold envAfterSynth
    rw [if_pos hd]
    have hd2 : envDoSynth (setKeyJs l "PATH" (pathSynth (n.getD ""))) n = false := by
      unfold envDoSynth
      rw [lookupKey_setKeyJs]
      show (truthyOptStr n && !(!(pathSynth (n.getD "") == ""))) = false
      rw [pathSynth_ne_empty]
      simp
    rw [if_neg (by rw [hd2]; exact Bool.false_ne_true)]
  · unfold envAfterSynth
    rw [if_neg hd, if_neg hd]

theorem computeEnv_stable (e : Option (List (String × String))) (n : Option String) :
    computeEnv (computeEnv e n).2 n = computeEnv e n := by
  cases e with
  | none => rfl
  | some l =>
    show computeEnv (some (envAfterSynth l n)) n = _
    unfold computeEnv
    simp only [Option.getD_some, envAfterSynth_idem]

theorem find?_first_match {α : Type} (p : α → Bool) :
    ∀ (l : List α) (x : α), l.find? p = some x →
      p x = true ∧ ∃ l1 l2, l = l1 ++ x :: l2 ∧ ∀ y ∈ l1, p y = false := by
  intro l
  induction l with
  | nil => intro x hx; simp at hx
  | cons a t ih =>
    intro x hx
    cases ha : p a with
    | true =>
      rw [List.find?_cons, ha] at hx
      have hax : a = x := by simpa using hx
      subst hax
      exact ⟨ha, [], t, rfl, by intro y hy; simp at hy⟩
    | false =>
      rw [List.find?_cons, ha] at hx
      obtain ⟨hp, l1, l2, happ, hall⟩ := ih x hx
      refine ⟨hp, a :: l1, l2, by rw [List.cons_append, happ], ?_⟩
      intro y hy
      rcases List.mem_cons.mp hy with hya | hyl
      · rw [hya]; exact ha
      · exact hall y hyl

theorem dropWhile_head_false {α : Type} (p : α → Bool) :
    ∀ (l : List α) (c : α) (cs : List α), l.dropWhile p = c :: cs → p c = false := by
  intro l
  induction l with
  | nil => intro c cs h; simp [List.dropWhile] at h
  | cons a t ih =>
    intro c cs h
    rw [List.dropWhile_cons] at h
    cases hpa : p a with
    | true => rw [hpa] at h; simp at h; exact ih c cs h
    | false =>
      rw [hpa] at h
      simp at h
      rw [← h.1]
      exact hpa

theorem dropWhile_append_all {α : Type} (p : α → Bool) :
    ∀ (l1 l2 : List α), (∀ c ∈ l1, p c = true) → (l1 ++ l2).dropWhile p = l2.dropWhile p := by
  intro l1
  induction l1 with
  | nil => intro l2 _; rfl
  | cons a t ih =>
    intro l2 h
    rw [List.cons_append, List.dropWhile_cons]
    rw [h a (List.mem_cons_self a t)]
    simp only [if_true]
    exact ih l2 fun c hc => h c (List.mem_cons_of_mem a hc)

theorem isPrefixCL_self_append : ∀ (l r : List Char), isPrefixCL l (l ++ r) = true := by
  intro l
  induction l with
  | nil => intro r; rfl
  | cons a as ih =>
    intro r
    show (a == a && isPrefixCL as (as ++ r)) = true
    rw [ih, beq_self_eq_true]
    rfl

theorem strEndsWith_append (a suffix : String) :
    strEndsWith (a ++ suffix) suffix = true := by
  unfold strEndsWith
  rw [String.data_append, List.reverse_append]
  exact isPrefixCL_self_append _ _

theorem jsDirname_ne_empty (p : String) : (jsDirname p == "") = false := by
  unfold jsDirname
  split
  · rfl
  · rfl
  · rw [beq_eq_false_iff_ne]
    intro hc
    have hd := congrArg String.data hc
    simp at hd

theorem jsDirname_join (destPath n : String)
    (hn : ∀ c ∈ n.data, (c == '/') = false) :
    jsDirname (jsJoin (jsDirname destPath) n) = jsDirname destPath := by
  have hall : ∀ c ∈ n.data.reverse, (fun c => !(c == '/')) c = true := by
    intro c hc
    show (!(c == '/')) = true
    rw [hn c (List.mem_reverse.mp hc)]
    rfl
  unfold jsJoin
  by_cases hdot : (jsDirname destPath == ".") = true
  · rw [if_pos hdot]
    have h1 : n.data.reverse.dropWhile (fun c => !(c == '/')) = [] := by
      rw [List.dropWhile_eq_nil_iff]
      intro c hc
      exact hall c hc
    have h2 : jsDirname n = "." := by
      unfold jsDirname
      rw [h1]
    rw [h2]
    exact (beq_iff_eq.mp hdot).symm
  · rw [if_neg hdot]
    have hdne := jsDirname_ne_empty destPath
    have hdata : (jsDirname destPath ++ "/" ++ n).data.reverse
        = n.data.reverse ++ ('/' :: (jsDirname destPath).data.reverse) := by
      rw [String.data_append, String.data_append]
      simp [List.reverse_append]
    generalize hgen : jsDirname destPath = d at hdata hdne ⊢
    conv_lhs => rw [jsDirname]
    rw [hdata, dropWhile_append_all _ _ _ hall, List.dropWhile_cons]
    rw [show (!(('/' : Char) == '/')) = false from rfl]
    simp only [Bool.false_eq_true, if_false]
    cases hdr : d.data.reverse with
    | nil =>
      exfalso
      have hdnil : d.data = [] := by
        have := congrArg List.reverse hdr
        simpa using this
      have : d = "" := by
        cases d with
        | mk l => simp at hdnil; rw [hdnil]
      rw [this] at hdne
      simp at hdne
    | cons c2 t2 =>
      have hstep : (match ('/' :: c2 :: t2 : List Char) with
          | [] => "."
          | [_] => "/"
          | _ :: c :: t => (⟨(c :: t).reverse⟩ : String)) = ⟨(c2 :: t2).reverse⟩ := rfl
      rw [hstep]
      have hrev : d.data = (c2 :: t2).reverse := by
        have h0 := congrArg List.reverse hdr
        simp at h0 ⊢
        exact h0
      rw [← hrev]

/-! ### Claim theorems -/

/-- Claim C10: the status query is total and internally consistent.  For every
outcome of the underlying launchctl list invocation (none models any
failure of the control-plane query, not only identifier absence),
getServiceStatus reports running exactly when a pid was parsed, reports
loaded = false only with pid and exitStatus both null, and on a failed
query returns the all-false record. -/
theorem claim_C10_status_total_consistent (q : Option String) :
    ((getServiceStatus q).running = (getServiceStatus q).pid.isSome)
    ∧ ((getServiceStatus q).loaded = false →
        (getServiceStatus q).pid = none ∧ (getServiceStatus q).exitStatus = none)
    ∧ (q = none →
        getServiceStatus q
          = { loaded := false, running := false, pid := none, exitStatus := none }) := by
  cases q with
  | none => exact ⟨rfl, fun _ => ⟨rfl, rfl⟩, fun _ => rfl⟩
  | some out =>
    refine ⟨rfl, ?_, ?_⟩
    · intro h
      exact absurd h (by simp [getServiceStatus])
    · intro h
      exact absurd h (by simp)

/-- Witness for C10 at concrete launchctl outputs: a failed query yields the
all-false record, and on a real launchctl list output running mirrors the
parsed PID. -/
theorem claim_C10_witness :
    (getServiceStatus none).pid = none
    ∧ (getServiceStatus none).exitStatus = none
    ∧ ((getServiceStatus (some "\x7b\n\t\"PID\" = 12345;\n\t\"LastExitStatus\" = 0;\n\x7d")).running
        = (getServiceStatus (some "\x7b\n\t\"PID\" = 12345;\n\t\"LastExitStatus\" = 0;\n\x7d")).pid.isSome) :=
  ⟨((claim_C10_status_total_consistent none).2.1 rfl).1,
   ((claim_C10_status_total_consistent none).2.1 rfl).2,
   (claim_C10_status_total_consistent
     (some "\x7b\n\t\"PID\" = 12345;\n\t\"LastExitStatus\" = 0;\n\x7d")).1⟩

/-- Counterexample to claim C2 as stated: for a loaded, running service with
no port and no health URL configured, the evaluator labels the service
healthy, not plain running. -/
theorem claim_C2_counterexample :
    noChecksService.port = none
    ∧ noChecksService.healthCheck = none
    ∧ (getServiceHealth noChecksService
        { loaded := true, running := true, pid := some 42, exitStatus := none }
        { listening := false, pid := none } { healthy := false, status := none }).status
      = "healthy"
    ∧ (getServiceHealth noChecksService
        { loaded := true, running := true, pid := some 42, exitStatus := none }
        { listening := false, pid := none } { healthy := false, status := none }).status
      ≠ "running" := by
  exact ⟨rfl, rfl, rfl, by decide⟩

/-- Claim C2 as amended: the label cascade is not_installed / stopped /
starting / unhealthy exactly as claimed, but the final branch is always
healthy — the evaluator never emits a plain running label, even when no
check is configured.  The HTTP probe counts as unhealthy exactly when the
fetch succeeds with status at least 500, or the probe fails outright
(non-https, or both fetch and the curl fallback fail). -/
theorem claim_C2_health_cascade :
    (∀ (s : ServiceRecord) (ls : ServiceStatus) (pp : PortResult) (hp : HttpResult),
      (getServiceHealth s ls pp hp).status
        = specHealthStatus (truthyPort s.port) (truthyOptStr s.healthCheck)
            ls.loaded ls.running pp.listening hp.healthy)
    ∧ (∀ (b : Bool) (st : Int) (cs : Option Int),
        (checkHealth b (some st) cs).healthy = decide (st < 500))
    ∧ (∀ cs : Option Int, (checkHealth false none cs).healthy = false) := by
  refine ⟨?_, ?_, ?_⟩
  · intro s ls pp hp
    obtain ⟨ld, rn, pid, ex⟩ := ls
    obtain ⟨listen, ppid⟩ := pp
    obtain ⟨hh, hst⟩ := hp
    cases ld <;> cases rn <;>
      cases hport : truthyPort s.port <;>
      cases hhc : truthyOptStr s.healthCheck <;>
      cases listen <;> cases hh <;>
      simp [getServiceHealth, specHealthStatus, hport, hhc]
  · intro b st cs
    by_cases h5 : st < 500
    · simp [checkHealth, h5]
    · have h2 : ¬(st ≤ 299) := by omega
      simp [checkHealth, h5, h2]
  · intro cs
    rfl

/-- Counterexample to claim C8 as stated: in exConfig the second entry's name
is exactly the query, yet getService returns the first entry, whose
identifier merely contains the query as a substring. -/
theorem claim_C8_counterexample :
    getService exConfig "test" = some svcAlpha
    ∧ svcTestName ∈ exConfig.services
    ∧ jsToLower svcTestName.name = jsToLower "test"
    ∧ svcAlpha.name ≠ svcTestName.name := by
  refine ⟨rfl, ?_, rfl, by decide⟩
  exact List.mem_cons_of_mem _ (List.mem_cons_self _ _)

/-- Claim C8 as amended: getService performs a single left-to-right pass with
the combined predicate (case-insensitive name equality OR identifier
substring containment); the entry returned is the first match of that
combined predicate, so an exact name match wins only when no earlier entry
matches either way. -/
theorem claim_C8_first_combined_match (cfg : ServicesConfig) (q : String)
    (s : ServiceRecord) (h : getService cfg q = some s) :
    matchesQuery q s = true
    ∧ ∃ l1 l2, cfg.services = l1 ++ s :: l2 ∧ ∀ t ∈ l1, matchesQuery q t = false :=
  find?_first_match (matchesQuery q) cfg.services s h

/-- Witness for the amended C8 at the concrete manifest: the entry returned
for the query test does satisfy the combined predicate. -/
theorem claim_C8_witness : matchesQuery "test" svcAlpha = true :=
  (claim_C8_first_combined_match exConfig "test" svcAlpha rfl).1

/-- Claim C6: adding a record that collides with an existing entry on the
name (case-insensitively) or on the identifier fails with the validation
error before any save is performed, so the manifest file is untouched;
with no collision the record is appended and exactly one save of the
extended manifest is performed. -/
theorem claim_C6_add_unique (cfg : ServicesConfig) (service : ServiceRecord) :
    ((∃ s ∈ cfg.services, isDuplicateOf service s = true) →
      addService cfg service
        = (.error ("Service \"" ++ service.name ++ "\" already exists"), []))
    ∧ ((∀ s ∈ cfg.services, isDuplicateOf service s = false) →
      addService cfg service
        = (.ok ⟨cfg.services ++ [service]⟩,
           [.save ⟨cfg.services ++ [service]⟩])) := by
  constructor
  · intro hex
    obtain ⟨a, hmem, hdup⟩ := hex
    have hsome : (cfg.services.find? (isDuplicateOf service)).isSome := by
      rw [List.find?_isSome]
      exact ⟨a, hmem, hdup⟩
    unfold addService
    cases hf : cfg.services.find? (isDuplicateOf service) with
    | none => rw [hf] at hsome; simp at hsome
    | some a' => rfl
  · intro hall
    have hnone : cfg.services.find? (isDuplicateOf service) = none := by
      rw [List.find?_eq_none]
      intro x hx
      rw [hall x hx]
      simp
    unfold addService
    rw [hnone]

/-- Witness for C6 at a concrete manifest: a case-insensitive name collision
is rejected with no save, a fresh record is appended and saved. -/
theorem claim_C6_witness :
    addService exConfig dupNameService
      = (.error ("Service \"" ++ dupNameService.name ++ "\" already exists"), [])
    ∧ addService exConfig freshService
      = (.ok ⟨exConfig.services ++ [freshService]⟩,
         [.save ⟨exConfig.services ++ [freshService]⟩]) :=
  ⟨(claim_C6_add_unique exConfig dupNameService).1
      ⟨svcAlpha, List.mem_cons_self _ _, by decide⟩,
   (claim_C6_add_unique exConfig freshService).2 (by decide)⟩

/-- Counterexample to claim C9 as stated: when the service is loaded and the
uninstall step throws, the remove command aborts in its shared catch
handler and the manifest entry is never stripped, even though the
keep-manifest-entry option was not given. -/
theorem claim_C9_counterexample :
    removeCommand true true true (.error "uninstall failed") false false
      = [RemoveStep.uninstall, RemoveStep.fail]
    ∧ RemoveStep.stripManifest
        ∉ removeCommand true true true (.error "uninstall failed") false false := by
  exact ⟨rfl, by decide⟩

/-- Claim C9 as amended: failures of the launchctl control-plane verbs during
uninstall are swallowed inside uninstallService (it still returns success
whenever the descriptor deletions do not throw), so a failing supervisor
uninstall does not block manifest cleanup; but when the uninstall step
itself throws (a descriptor deletion error), the command aborts before the
manifest entry is stripped. -/
theorem claim_C9_uninstall_vs_manifest :
    (∀ bootoutOk destExists srcExists : Bool,
        (uninstallService bootoutOk destExists srcExists true true).2 = .ok ())
    ∧ (∀ loaded running cleanLogs : Bool,
        RemoveStep.stripManifest ∈ removeCommand true loaded running (.ok ()) false cleanLogs)
    ∧ (∀ (loaded running cleanLogs : Bool) (e : String), (loaded || running) = true →
        RemoveStep.stripManifest
          ∉ removeCommand true loaded running (.error e) false cleanLogs) := by
  refine ⟨?_, ?_, ?_⟩
  · intro bootoutOk destExists srcExists
    cases bootoutOk <;> cases destExists <;> cases srcExists <;> rfl
  · intro loaded running cleanLogs
    cases loaded <;> cases running <;> cases cleanLogs <;> simp [removeCommand]
  intro loaded running cleanLogs e h
  cases loaded with
  | true => simp [removeCommand]
  | false =>
    cases running with
    | true => simp [removeCommand]
    | false => simp at h

/-- Witness for the amended C9: with bootout failing but deletions fine the
uninstall still reports success, and a thrown uninstall blocks the
manifest strip at a concrete input. -/
theorem claim_C9_witness :
    (uninstallService false true true true true).2 = .ok ()
    ∧ RemoveStep.stripManifest
        ∉ removeCommand true true false (.error "boom") false false :=
  ⟨claim_C9_uninstall_vs_manifest.1 false true true,
   claim_C9_uninstall_vs_manifest.2.2 true false false "boom" rfl⟩

/-- Counterexample to claim C5 as stated: the manifest save path is a single
direct write of the serialized config to the manifest file, with no
temporary file and no rename, so it is not an atomic replace. -/
theorem claim_C5_counterexample :
    saveConfig "/root/server_monitor/services.json" "\x7b\n  \"services\": []\n\x7d"
      = [FsAction.write "/root/server_monitor/services.json" "\x7b\n  \"services\": []\n\x7d"]
    ∧ isAtomicReplace "/root/server_monitor/services.json"
        (saveConfig "/root/server_monitor/services.json" "\x7b\n  \"services\": []\n\x7d")
      = false := by
  exact ⟨rfl, by decide⟩

/-- Claim C5 as amended: every descriptor write goes through writePlistAtomic,
which writes only a fresh temporary .plist-<random>.tmp file in the
destination's own directory and then renames it over the destination (for
any destination that is not itself a .tmp file and any slash-free random
component); the manifest save used by add, remove and update instead
writes services.json directly and is not an atomic replace. -/
theorem claim_C5_atomic_writes :
    (∀ content destPath rand : String,
      strEndsWith destPath ".tmp" = false →
      (∀ ch ∈ rand.data, (ch == '/') = false) →
      isAtomicReplace destPath (writePlistAtomic content destPath rand) = true)
    ∧ (∀ configPath serialized : String,
        isAtomicReplace configPath (saveConfig configPath serialized) = false) := by
  constructor
  · intro content destPath rand htmp hrand
    have hnameSlashFree : ∀ ch ∈ (tempPlistName rand).data, (ch == '/') = false := by
      intro ch hch
      unfold tempPlistName at hch
      rw [String.data_append, String.data_append] at hch
      rcases List.mem_append.mp hch with h1 | h2
      · rcases List.mem_append.mp h1 with h3 | h4
        · fin_cases h3 <;> rfl
        · exact hrand ch h4
      · fin_cases h2 <;> rfl
    have hdir : jsDirname (jsJoin (jsDirname destPath) (tempPlistName rand))
        = jsDirname destPath := jsDirname_join destPath (tempPlistName rand) hnameSlashFree
    have hends : strEndsWith (jsJoin (jsDirname destPath) (tempPlistName rand)) ".tmp"
        = true := by
      unfold jsJoin tempPlistName
      by_cases hdot : (jsDirname destPath == ".") = true
      · rw [if_pos hdot]
        exact strEndsWith_append _ _
      · rw [if_neg hdot]
        rw [← String.append_assoc, ← String.append_assoc]
        exact strEndsWith_append _ _
    have hne : (jsJoin (jsDirname destPath) (tempPlistName rand) == destPath) = false := by
      cases hb : (jsJoin (jsDirname destPath) (tempPlistName rand) == destPath) with
      | false => rfl
      | true =>
        exfalso
        have heq := beq_iff_eq.mp hb
        rw [heq] at hends
        rw [hends] at htmp
        exact Bool.noConfusion htmp
    unfold writePlistAtomic isAtomicReplace
    simp only [List.all_cons, List.all_nil, List.any_cons, List.any_nil]
    rw [hne, hdir]
    simp
  · intro configPath serialized
    unfold saveConfig isAtomicReplace
    simp

/-- Witness for the amended C5 at a real descriptor path and random token. -/
theorem claim_C5_witness :
    isAtomicReplace "/Users/me/Library/LaunchAgents/com.servermonitor.test.plist"
      (writePlistAtomic "<plist/>"
        "/Users/me/Library/LaunchAgents/com.servermonitor.test.plist" "0f3a9c21deadbeef")
      = true :=
  claim_C5_atomic_writes.1 "<plist/>"
    "/Users/me/Library/LaunchAgents/com.servermonitor.test.plist" "0f3a9c21deadbeef"
    (by decide) (by decide)

/-- Counterexample to claim C4 as stated: a whitespace-only command string and
an empty argv array are both truthy, so validation passes and a descriptor
is produced (with an empty ProgramArguments array) instead of a
missing-command failure. -/
theorem claim_C4_counterexample :
    wsCommandService.command = some (.str "   ")
    ∧ (generatePlistFromService wsCommandService exSettings).isOk = true
    ∧ emptyArgvService.command = some (.argv [])
    ∧ (generatePlistFromService emptyArgvService exSettings).isOk = true := by
  exact ⟨rfl, rfl, rfl, rfl⟩

/-- Claim C4 as amended: rendering fails with the missing-identifier error
exactly when the identifier is absent or empty, fails with the
missing-command error exactly when the command is absent or the empty
string, and otherwise (including whitespace-only strings and empty argv
arrays) produces a descriptor. -/
theorem claim_C4_validation (s : ServiceRecord) (c : GlobalSettings) :
    (truthyOptStr s.identifier = false →
      generatePlistFromService s c = .error "Service must have an identifier")
    ∧ (truthyOptStr s.identifier = true → truthyCmd s.command = false →
      generatePlistFromService s c = .error "Service must have a command")
    ∧ (truthyOptStr s.identifier = true → truthyCmd s.command = true →
      (generatePlistFromService s c).isOk = true) := by
  refine ⟨?_, ?_, ?_⟩
  · intro h
    unfold generatePlistFromService
    rw [if_pos h]
  · intro h1 h2
    unfold generatePlistFromService
    rw [if_neg (by rw [h1]; simp), if_pos h2]
  · intro h1 h2
    unfold generatePlistFromService
    rw [if_neg (by rw [h1]; simp), if_neg (by rw [h2]; simp)]
    rfl

/-- Witness for the amended C4 at concrete records. -/
theorem claim_C4_witness :
    generatePlistFromService noIdService exSettings
      = .error "Service must have an identifier"
    ∧ generatePlistFromService noCmdService exSettings
      = .error "Service must have a command"
    ∧ (generatePlistFromService exService exSettings).isOk = true :=
  ⟨(claim_C4_validation noIdService exSettings).1 rfl,
   (claim_C4_validation noCmdService exSettings).2.1 rfl rfl,
   (claim_C4_validation exService exSettings).2.2 rfl rfl⟩

theorem computeEnv_noop (e : Option (List (String × String))) (n : Option String)
    (h : envDoSynth (e.getD []) n = false) : (computeEnv e n).2 = e := by
  cases e with
  | none => rfl
  | some l =>
    show some (envAfterSynth l n) = some l
    unfold envAfterSynth
    simp only [Option.getD_some] at h
    rw [if_neg (by rw [h]; exact Bool.noConfusion)]

theorem genServiceAfter_spec (s : ServiceRecord) (c : GlobalSettings) :
    genServiceAfter s c
      = { s with environmentVariables :=
          if truthyOptStr s.identifier && truthyCmd s.command
          then (computeEnv s.environmentVariables c.nodePath).2
          else s.environmentVariables } := by
  unfold genServiceAfter generatePlistFromService
  by_cases h1 : truthyOptStr s.identifier = false
  · rw [if_pos h1, h1]
    rfl
  · have h1' : truthyOptStr s.identifier = true := by
      cases hb : truthyOptStr s.identifier with
      | true => rfl
      | false => exact absurd hb h1
    rw [if_neg h1, h1']
    by_cases h2 : truthyCmd s.command = false
    · rw [if_pos h2, h2]
      rfl
    · have h2' : truthyCmd s.command = true := by
        cases hb : truthyCmd s.command with
        | true => rfl
        | false => exact absurd hb h2
      rw [if_neg h2, h2']
      rfl

/-- Counterexample to claim C7 as stated: rendering a record that carries an
environment mapping without a PATH entry, with a runtime binary path in
the settings, adds a synthesized PATH entry to the record's own mapping —
the service record is mutated by the call. -/
theorem claim_C7_counterexample :
    fooEnvService.environmentVariables = some [("FOO", "bar")]
    ∧ (genServiceAfter fooEnvService exNodeSettings).environmentVariables
      = some [("FOO", "bar"), ("PATH", "/opt/node/bin:/usr/local/bin:/usr/bin:/bin")] := by
  exact ⟨rfl, rfl⟩

/-- Claim C7 as amended: rendering leaves every field of the service record
unchanged except environmentVariables, and even that mapping is unchanged
whenever it is absent (the synthesized PATH then goes into a fresh
object), whenever it already defines a non-empty PATH, and whenever no
runtime binary path is configured; only the remaining case appends the
synthesized PATH entry to the record's mapping. -/
theorem claim_C7_render_mutation (s : ServiceRecord) (c : GlobalSettings) :
    genServiceAfter s c
      = { s with environmentVariables := (genServiceAfter s c).environmentVariables }
    ∧ (s.environmentVariables = none → genServiceAfter s c = s)
    ∧ (truthyEnvVal (lookupKey (s.environmentVariables.getD []) "PATH") = true →
        genServiceAfter s c = s)
    ∧ (truthyOptStr c.nodePath = false → genServiceAfter s c = s) := by
  refine ⟨?_, ?_, ?_, ?_⟩
  · rw [genServiceAfter_spec]
  · intro h
    rw [genServiceAfter_spec]
    have hnoop : (computeEnv s.environmentVariables c.nodePath).2
        = s.environmentVariables := by
      rw [h]
      rfl
    rw [hnoop, ite_self]
  · intro h
    rw [genServiceAfter_spec]
    have hds : envDoSynth (s.environmentVariables.getD []) c.nodePath = false := by
      unfold envDoSynth
      rw [h]
      simp
    rw [computeEnv_noop _ _ hds, ite_self]
  · intro h
    rw [genServiceAfter_spec]
    have hds : envDoSynth (s.environmentVariables.getD []) c.nodePath = false := by
      unfold envDoSynth
      rw [h]
      rfl
    rw [computeEnv_noop _ _ hds, ite_self]

/-- Witness for the amended C7: a record pinning its own PATH is returned
untouched, as is one with no environment mapping at all. -/
theorem claim_C7_witness :
    genServiceAfter customPathService exNodeSettings = customPathService
    ∧ genServiceAfter exService exNodeSettings = exService :=
  ⟨(claim_C7_render_mutation customPathService exNodeSettings).2.2.1 rfl,
   (claim_C7_render_mutation exService exNodeSettings).2.1 rfl⟩

/-- Claim C1: rendering twice with the same inputs is byte-identical.  The
second call is run on the record as the first call left it (the PATH
synthesis may have mutated its environment mapping); the result — output
document and final record alike — is identical to the first call's, and
validation failures reproduce identically as well. -/
theorem claim_C1_render_deterministic (s : ServiceRecord) (c : GlobalSettings) :
    genTwice s c = generatePlistFromService s c := by
  unfold genTwice
  by_cases h1 : truthyOptStr s.identifier = false
  · have hg : generatePlistFromService s c = .error "Service must have an identifier" := by
      unfold generatePlistFromService
      rw [if_pos h1]
    rw [hg]
  · by_cases h2 : truthyCmd s.command = false
    · have hg : generatePlistFromService s c = .error "Service must have a command" := by
        unfold generatePlistFromService
        rw [if_neg h1, if_pos h2]
      rw [hg]
    · have hg : generatePlistFromService s c
          = .ok (renderPlist (s.identifier.getD "") (s.command.getD (.argv []))
              s.path s.enabled s.keepAlive s.throttleInterval s.extraKeys c.logDir
              (computeEnv s.environmentVariables c.nodePath).1,
            { s with environmentVariables :=
                (computeEnv s.environmentVariables c.nodePath).2 }) := by
        unfold generatePlistFromService
        rw [if_neg h1, if_neg h2]
      rw [hg]
      show generatePlistFromService
          { s with environmentVariables :=
              (computeEnv s.environmentVariables c.nodePath).2 } c = _
      unfold generatePlistFromService
      dsimp only
      rw [if_neg h1, if_neg h2, computeEnv_stable]

/-- Counterexample to claim C3 as stated: with keepAlive
{successfulExitOnly: true} the rendered descriptor contains the key
successfulExitOnly taken verbatim and no false flag anywhere — the
claimed conditional-restart dictionary with a false
restart-on-successful-exit entry is not produced. -/
theorem claim_C3_counterexample :
    kaService.keepAlive = some (.obj [("successfulExitOnly", true)])
    ∧ strContains (genOut kaService exSettings) "<key>successfulExitOnly</key>" = true
    ∧ strContains (genOut kaService exSettings) "<false/>" = false := by
  exact ⟨rfl, by decide, by decide⟩

/-- Claim C3 as amended: a boolean keepAlive renders as the bare true/false
literal and any object form renders as a dict listing its entries
verbatim (escaped key, boolean value tag).  The conditional-restart input
the code supports is keepAlive {SuccessfulExit: false}, which renders the
dictionary with the false flag; the spec's {successfulExitOnly: true}
renders a dictionary with that verbatim key and a true flag, not a bare
boolean and not a false flag.  Every rendered document embeds the
KeepAlive section this way. -/
theorem claim_C3_keepalive_rendering :
    (keepAliveSection (some (.bool true)) = "    <true/>")
    ∧ (keepAliveSection (some (.bool false)) = "    <false/>")
    ∧ (keepAliveSection (some (.obj [("SuccessfulExit", false)]))
        = "    <dict>\n        <key>SuccessfulExit</key>\n        <false/>\n    </dict>")
    ∧ (keepAliveSection (some (.obj [("successfulExitOnly", true)]))
        = "    <dict>\n        <key>successfulExitOnly</key>\n        <true/>\n    </dict>")
    ∧ (∀ (s : ServiceRecord) (c : GlobalSettings),
        truthyOptStr s.identifier = true → truthyCmd s.command = true →
        ∃ u v, genOut s c
          = u ++ ("    <key>KeepAlive</key>\n" ++ keepAliveSection s.keepAlive) ++ v) := by
  refine ⟨rfl, rfl, rfl, rfl, ?_⟩
  intro s c h1 h2
  have hgen : genOut s c
      = renderPlist (s.identifier.getD "") (s.command.getD (.argv []))
          s.path s.enabled s.keepAlive s.throttleInterval s.extraKeys c.logDir
          (computeEnv s.environmentVariables c.nodePath).1 := by
    unfold genOut generatePlistFromService
    rw [if_neg (by rw [h1]; simp), if_neg (by rw [h2]; simp)]
  have hne : (("    <key>KeepAlive</key>\n" ++ keepAliveSection s.keepAlive) == "")
      = false :=
    append_ne_empty_left _ _ (by decide)
  have hmem : ("    <key>KeepAlive</key>\n" ++ keepAliveSection s.keepAlive)
      ∈ plistSections (s.identifier.getD "") (s.command.getD (.argv []))
          s.path s.enabled s.keepAlive s.throttleInterval s.extraKeys c.logDir
          (computeEnv s.environmentVariables c.nodePath).1 := by
    unfold plistSections
    exact List.mem_cons_of_mem _ (List.mem_cons_of_mem _ (List.mem_cons_of_mem _
      (List.mem_cons_of_mem _ (List.mem_cons_self _ _))))
  obtain ⟨u, v, hj⟩ := joinNl_filter_contains _ _ hmem hne
  refine ⟨plistHeader ++ u, v ++ plistFooter, ?_⟩
  rw [hgen]
  unfold renderPlist assemblePlist
  rw [hj]
  simp only [String.append_assoc]

/-- Witness for the amended C3: the concrete structured-keepAlive record
passes validation and its rendered document embeds its KeepAlive section. -/
theorem claim_C3_witness :
    truthyOptStr kaService.identifier = true
    ∧ truthyCmd kaService.command = true
    ∧ ∃ u v, genOut kaService exSettings
        = u ++ ("    <key>KeepAlive</key>\n" ++ keepAliveSection kaService.keepAlive) ++ v :=
  ⟨rfl, rfl, claim_C3_keepalive_rendering.2.2.2.2 kaService exSettings rfl rfl⟩
